import Mathlib

/-!
Shallow embedding of the GameNest booking core
(`src/booking/booking.service.ts`, together with
`src/common/enums/booking-status.enum.ts`, `src/booking/booking.schema.ts`,
`src/sport-service/sport-service.schema.ts`).

Modelling conventions:
* Clock times ("HH:MM" strings in the source) are modelled as minutes since
  midnight (a `Nat`).  For zero-padded "HH:MM" strings, MongoDB's
  lexicographic string comparison and moment's chronological comparison both
  coincide with the numeric order on minutes, so `<`/`≤` on `Nat` faithfully
  models both comparison styles used by the source.
* Calendar dates (`bookingDate`, stored as a start-of-day instant in the
  fixed operating timezone) are modelled as a day index (a `Nat`); an
  absolute instant is `day * 1440 + minutes`.  "now" is such an instant.
* Mongo ObjectIds are modelled as `Nat`.
* Prices / `durationHours` (floating point in JS, exact for the values the
  service produces) are modelled as `Rat`.
* Asynchronous I/O is sequentialized; the store is passed explicitly.
  Domain-event emission (fire-and-forget, no effect on the store) is elided.
* A mongoose `save()` can reject at runtime; where a claim depends on a
  write failing, the outcome of that write is an explicit boolean parameter.
-/

/-- Runtime value of a `status` field.  The TypeScript enum members are
strings at runtime, so a status value is either a string or the JavaScript
`undefined` produced by accessing a property that the enum object does not
define. -/
inductive StatusV where
  | str (s : String)
  | undef
deriving DecidableEq, Repr

namespace BookingStatus

/-- `BookingStatus.Pending` from booking-status.enum.ts. -/
def Pending : StatusV := .str "pending"

/-- `BookingStatus.Confirmed` from booking-status.enum.ts. -/
def Confirmed : StatusV := .str "confirmed"

/-- `BookingStatus.CancelledByCustomer` from booking-status.enum.ts. -/
def CancelledByCustomer : StatusV := .str "cancelled_by_customer"

/-- `BookingStatus.CancelledByClub` from booking-status.enum.ts. -/
def CancelledByClub : StatusV := .str "cancelled_by_club"

/-- `BookingStatus.Completed` from booking-status.enum.ts. -/
def Completed : StatusV := .str "completed"

/-- `BookingStatus.NoShow` from booking-status.enum.ts. -/
def NoShow : StatusV := .str "no_show"

/-- `BookingStatus.Rescheduled` from booking-status.enum.ts. -/
def Rescheduled : StatusV := .str "rescheduled"

/-- `BookingStatus.CancelledRescheduled` from booking-status.enum.ts. -/
def CancelledRescheduled : StatusV := .str "cancelled_rescheduled"

/-- `BookingStatus.ReschedulePending` from booking-status.enum.ts. -/
def ReschedulePending : StatusV := .str "reschedule_pending"

/-- `BookingStatus.RescheduleRequested` from booking-status.enum.ts. -/
def RescheduleRequested : StatusV := .str "reschedule_requested"

/-- `BookingStatus.Rejected` from booking-status.enum.ts. -/
def Rejected : StatusV := .str "rejected"

/-- The property access `BookingStatus.Expired` that booking.service.ts
performs.  The enum in booking-status.enum.ts defines no member named
`Expired`, so at runtime this access yields the JavaScript `undefined`. -/
def Expired : StatusV := .undef

end BookingStatus

/-- The string values of the eleven members that the `BookingStatus` enum in
booking-status.enum.ts actually defines, in source order. -/
def bookingStatusEnumValues : List String :=
  ["pending", "confirmed", "cancelled_by_customer", "cancelled_by_club",
   "completed", "no_show", "rescheduled", "cancelled_rescheduled",
   "reschedule_pending", "reschedule_requested", "rejected"]

/-- JavaScript truthiness of a status value: `undefined` and the empty
string are falsy, every other string is truthy. -/
def StatusV.truthy : StatusV → Bool
  | .str s => s != ""
  | .undef => false

/-- `Role` from role.enum.ts. -/
inductive Role where
  | User
  | Owner
  | Admin
  | Editor
deriving DecidableEq, Repr

/-- The authenticated actor (`JwtPayload` from jwt.strategy.ts): user id and
roles. -/
structure JwtPayload where
  id : Nat
  roles : List Role
deriving DecidableEq, Repr

/-- A sport service (sport-service.schema.ts), restricted to the fields the
booking core reads. -/
structure SportService where
  id : Nat
  club : Option Nat
  name : String
  hourlyPrice : Rat
  isActive : Bool
  availableDays : List String
  openingTime : Nat
  closingTime : Nat
  slotDurationMinutes : Nat
deriving DecidableEq, Repr

/-- A sport club (sport-club.schema.ts), restricted to the fields the
booking core reads. -/
structure SportClub where
  id : Nat
  owner : Nat
  name : String
deriving DecidableEq, Repr

/-- A booking record (booking.schema.ts). -/
structure BookingRec where
  id : Nat
  customer : Nat
  club : Nat
  service : Nat
  bookingDate : Nat
  startTime : Nat
  endTime : Nat
  durationHours : Rat
  totalPrice : Rat
  status : StatusV
  paymentStatus : String
  notes : Option String
  rescheduleOf : Option Nat
deriving DecidableEq, Repr

/-- The persisted collection of bookings, with the next id the store will
assign (Mongo assigns fresh ObjectIds on create). -/
structure Store where
  bookings : List BookingRec
  nextId : Nat
deriving DecidableEq, Repr

/-- The external read-only collaborators: the service catalog and the club
directory. -/
structure Env where
  services : List SportService
  clubs : List SportClub
deriving DecidableEq, Repr

/-- `CreateBookingDto` from create-booking.dto.ts (times already parsed). -/
structure CreateBookingDto where
  serviceId : Nat
  bookingDate : Nat
  startTime : Nat
  endTime : Nat
  notes : Option String
  rescheduleOf : Option Nat
deriving DecidableEq, Repr

/-- `UpdateBookingDto` from update-booking.dto.ts.  `status` carries the raw
runtime value so that callers bypassing DTO validation are representable. -/
structure UpdateBookingDto where
  status : Option StatusV
  notes : Option String
deriving DecidableEq, Repr

/-- Error kinds thrown by the booking core (NestJS exception classes),
plus `storage` for a rejected storage write (a mongoose save() rejection
for external reasons) and `validation` for a mongoose ValidationError
raised by document validation at save(). -/
inductive BErr where
  | notFound (msg : String)
  | badRequest (msg : String)
  | conflict (msg : String)
  | forbidden (msg : String)
  | storage (msg : String)
  | validation (msg : String)
deriving DecidableEq, Repr

/-- Weekday abbreviations produced by `moment.format("ddd")`, indexed so
that day 0 falls on a Thursday (the Unix epoch convention; any fixed
convention works for the model). -/
def weekdayNames : List String :=
  ["Thu", "Fri", "Sat", "Sun", "Mon", "Tue", "Wed"]

/-- Weekday abbreviation of a day index. -/
def dayOfWeek (d : Nat) : String := weekdayNames.getD (d % 7) "Thu"

/-- `sportService.findById` (sport-service.service.ts): plain lookup, no
`isActive` filtering. -/
def findService (env : Env) (serviceId : Nat) : Option SportService :=
  env.services.find? (fun s => s.id == serviceId)

/-- `sportClubService.findClubById`. -/
def findClub (env : Env) (clubId : Nat) : Option SportClub :=
  env.clubs.find? (fun c => c.id == clubId)

/-- `bookingModel.findById`. -/
def findBooking (st : Store) (bookingId : Nat) : Option BookingRec :=
  st.bookings.find? (fun b => b.id == bookingId)

/-- `bookingModel.findByIdAndUpdate(id, { status })` / persisting a status
change of one record: every stored record with that id gets the new status
(no-op when the id is absent). -/
def setStatus (st : Store) (bookingId : Nat) (s : StatusV) : Store :=
  { st with bookings := st.bookings.map fun b =>
      if b.id == bookingId then { b with status := s } else b }

/-- Persisting a whole updated record (`booking.save()` after in-memory
mutation). -/
def setBooking (st : Store) (bookingId : Nat) (nb : BookingRec) : Store :=
  { st with bookings := st.bookings.map fun b =>
      if b.id == bookingId then nb else b }

/-- Zero-pad a number to two digits, as `moment.format("HH:mm")` does. -/
def pad2 (n : Nat) : String := if n < 10 then "0" ++ toString n else toString n

/-- Render minutes-since-midnight as "HH:MM". -/
def timeToStr (m : Nat) : String := pad2 (m / 60) ++ ":" ++ pad2 (m % 60)

/-- A potential slot produced by the generator loop in `getAvailableSlots`:
start, end (minutes) and the display string. -/
structure PSlot where
  startT : Nat
  endT : Nat
  display : String
deriving DecidableEq, Repr

/-- The slot-generation loop body of `getAvailableSlots`: starting from
`cur`, while `cur < closing`, emit a slot of `dur` minutes truncated to
`closing`, and continue from its end.  `fuel` bounds the iteration count;
when `0 < dur` a fuel of `closing - cur` is exhaustive (with `dur = 0` the
source loop does not terminate). -/
def genSlotsAux (closing dur : Nat) : Nat → Nat → List PSlot
  | _cur, 0 => []
  | cur, fuel + 1 =>
    if cur < closing then
      let e := if closing < cur + dur then closing else cur + dur
      { startT := cur, endT := e,
        display := timeToStr cur ++ "-" ++ timeToStr e } ::
        genSlotsAux closing dur e fuel
    else []

/-- All potential slots of a day between `opening` and `closing`. -/
def potentialSlots (opening closing dur : Nat) : List PSlot :=
  genSlotsAux closing dur opening (closing - opening)

/-- The single half-open interval intersection test used by
`getAvailableSlots` to filter a potential slot `[aStart, aEnd)` against a
booked interval `[bStart, bEnd)`:
`potentialSlot.start.isBefore(bookedEnd) && potentialSlot.end.isAfter(bookedStart)`. -/
def intersects (aStart aEnd bStart bEnd : Nat) : Bool :=
  decide (aStart < bEnd) && decide (aEnd > bStart)

/-- The two-case `$or` condition of `createBooking`'s overlap query, on an
existing booking `[bStart, bEnd)` against the requested `[reqStart, reqEnd)`:
case 1 `startTime < endTime(req) AND endTime > startTime(req)`, case 2
`startTime <= startTime(req) AND endTime >= endTime(req)`. -/
def mongoOverlapCond (bStart bEnd reqStart reqEnd : Nat) : Bool :=
  (decide (bStart < reqEnd) && decide (bEnd > reqStart)) ||
  (decide (bStart ≤ reqStart) && decide (bEnd ≥ reqEnd))

/-- The full match condition of `createBooking`'s overlap `findOne` query:
same service, same date, status in `{pending, confirmed}`, and the two-case
overlap disjunction. -/
def overlapsActiveQuery (dto : CreateBookingDto) (ex : BookingRec) : Bool :=
  ex.service == dto.serviceId && ex.bookingDate == dto.bookingDate &&
  (ex.status == BookingStatus.Pending || ex.status == BookingStatus.Confirmed) &&
  mongoOverlapCond ex.startTime ex.endTime dto.startTime dto.endTime

/-- The predicate written from the specification's words (section 4.2):
"intersection test: `existing.start < candidate.end AND
existing.end > candidate.start`". -/
def specIntersects (existingStart existingEnd candStart candEnd : Nat) : Bool :=
  decide (existingStart < candEnd) && decide (existingEnd > candStart)

/-- `getAvailableSlots` (booking.service.ts lines 29-95): look up the
service (no active check), return `[]` when the weekday is not available,
otherwise generate the potential slots and successively filter out the
display strings whose slot intersects a pending/confirmed booking of the
same service and date. -/
def getAvailableSlots (env : Env) (serviceId : Nat) (dateD : Nat) (st : Store) :
    Except BErr (List String) :=
  match findService env serviceId with
  | none => .error (.notFound "Sport service not found.")
  | some service =>
    if !(service.availableDays.contains (dayOfWeek dateD)) then .ok []
    else
      let slots := potentialSlots service.openingTime service.closingTime
        service.slotDurationMinutes
      let bookedBookings := st.bookings.filter fun b =>
        b.service == serviceId && b.bookingDate == dateD &&
        (b.status == BookingStatus.Pending || b.status == BookingStatus.Confirmed)
      let availableDisplaySlots := bookedBookings.foldl
        (fun acc booking => acc.filter fun displaySlot =>
          match slots.find? (fun s => s.display == displaySlot) with
          | some potentialSlot =>
            !(intersects potentialSlot.startT potentialSlot.endT
                booking.startTime booking.endTime)
          | none => true)
        (slots.map (fun s => s.display))
      .ok availableDisplaySlots

/-- The booking document `createBooking` persists on success. -/
def mkNewBooking (service : SportService) (club : Nat) (customerId : Nat)
    (dto : CreateBookingDto) (initialStatus : StatusV) (newId : Nat) :
    BookingRec :=
  { id := newId
    customer := customerId
    club := club
    service := dto.serviceId
    bookingDate := dto.bookingDate
    startTime := dto.startTime
    endTime := dto.endTime
    durationHours := mkRat ((dto.endTime - dto.startTime : Nat) : Int) 60
    totalPrice := service.hourlyPrice * mkRat ((dto.endTime - dto.startTime : Nat) : Int) 60
    status := initialStatus
    paymentStatus := "pending"
    notes := dto.notes
    rescheduleOf := dto.rescheduleOf }

/-- `createBooking` (booking.service.ts lines 107-217): validation sequence,
overlap query, price computation, insert.  Event emission is elided (it does
not touch the store). -/
def createBooking (env : Env) (now : Nat) (customerId : Nat)
    (dto : CreateBookingDto) (initialStatus : StatusV) (st : Store) :
    Except BErr (BookingRec × Store) :=
  match findService env dto.serviceId with
  | none => .error (.notFound "Sport service not found or is inactive.")
  | some service =>
    if !service.isActive then
      .error (.notFound "Sport service not found or is inactive.")
    else
      match service.club with
      | none => .error (.notFound "Sport service is not associated with a club.")
      | some club =>
        if dto.endTime ≤ dto.startTime then
          .error (.badRequest "Invalid start or end time for booking.")
        else if dto.bookingDate * 1440 + dto.startTime ≤ now then
          .error (.badRequest "Bookings can only be made for future slots.")
        else if !(service.availableDays.contains (dayOfWeek dto.bookingDate)) ||
            dto.startTime < service.openingTime ||
            service.closingTime < dto.endTime then
          .error (.badRequest "Service is not available during the requested time.")
        else if (dto.endTime - dto.startTime) % service.slotDurationMinutes != 0 ||
            (dto.endTime - dto.startTime) == 0 then
          .error (.badRequest "Booking duration must be in multiples of the slot duration and at least one slot.")
        else if mkRat ((dto.endTime - dto.startTime : Nat) : Int) 60 == 0 then
          .error (.badRequest "Booking duration cannot be zero.")
        else if st.bookings.any (overlapsActiveQuery dto) then
          .error (.conflict "The requested time slot is already booked or pending confirmation.")
        else
          let nb := mkNewBooking service club customerId dto initialStatus st.nextId
          .ok (nb, { bookings := st.bookings ++ [nb], nextId := st.nextId + 1 })

/-- `requestReschedule` (booking.service.ts lines 227-266): authorize, hold
the original (status := RescheduleRequested, persisted), attempt the new
`reschedule_pending` booking; on failure restore the previous status and
rethrow the creation error.  The outcome of each of the two `save()` calls
on the original booking is an explicit parameter (`true` = the write
resolves); a rejected save surfaces as a `storage` error. -/
def requestReschedule (env : Env) (now : Nat) (originalBookingId : Nat)
    (dto : CreateBookingDto) (user : JwtPayload)
    (holdSaveOk rollbackSaveOk : Bool) (st : Store) :
    Except BErr BookingRec × Store :=
  match findBooking st originalBookingId with
  | none => (.error (.notFound "Original booking not found."), st)
  | some originalBooking =>
    if originalBooking.customer != user.id then
      (.error (.forbidden "You can only reschedule your own bookings."), st)
    else if !(originalBooking.status == BookingStatus.Confirmed ||
        originalBooking.status == BookingStatus.Pending) then
      (.error (.badRequest "A booking with this status cannot be rescheduled."), st)
    else if !holdSaveOk then
      (.error (.storage "save rejected"), st)
    else
      let previousStatus := originalBooking.status
      let held := setStatus st originalBookingId BookingStatus.RescheduleRequested
      match createBooking env now user.id
          { dto with rescheduleOf := some originalBookingId }
          BookingStatus.ReschedulePending held with
      | .ok (proposedBooking, st1) => (.ok proposedBooking, st1)
      | .error e =>
        if rollbackSaveOk then
          (.error e, setStatus held originalBookingId previousStatus)
        else
          (.error (.storage "save rejected"), held)

/-- End instant of a booking: `bookingDate` + `endTime` in the operating
timezone (the `$dateFromString` of the concatenated date and end time). -/
def bookingEndInstant (b : BookingRec) : Nat :=
  b.bookingDate * 1440 + b.endTime

/-- `isExpireBooking` (booking.service.ts lines 579-606): the booking exists
and its end instant is at or before now. -/
def isExpireBooking (now : Nat) (st : Store) (bookingId : Nat) : Bool :=
  match findBooking st bookingId with
  | some b => decide (bookingEndInstant b ≤ now)
  | none => false

/-- `expirePastBookings` (booking.service.ts lines 548-574): one `updateMany`
setting `status := BookingStatus.Expired` on every pending/confirmed booking
whose end instant is at or before now.  (`BookingStatus.Expired` is the
undefined property access, see its definition.) -/
def expirePastBookings (now : Nat) (st : Store) : Store :=
  { st with bookings := st.bookings.map fun b =>
      if (b.status == BookingStatus.Pending ||
          b.status == BookingStatus.Confirmed) &&
          decide (bookingEndInstant b ≤ now) then
        { b with status := BookingStatus.Expired }
      else b }

/-- Mongoose document validation of the `status` path at `booking.save()`:
booking.schema.ts declares `@Prop({ enum: BookingStatus })`, so the enum
validator accepts exactly the eleven enum values; an unset (undefined)
value passes, the path not being marked required.  (This is the only
validated path `updateBooking` mutates; `findByIdAndUpdate` and
`updateMany` run no validators by default.) -/
def statusValid : StatusV → Bool
  | .str s => bookingStatusEnumValues.contains s
  | .undef => true

/-- `updateBooking` (booking.service.ts lines 279-398): permission flags,
status-transition chain, notes update, no-op check, save.  The final
`booking.save()` runs document validation: a status outside the schema's
enum makes the save reject with a ValidationError and nothing is persisted
(every branch that reaches an invalid status has made no prior store
write).  The returned store reflects the `findByIdAndUpdate` side-write on
the `rescheduleOf` original (accept/reject branches) and the final save.
All error paths leave the store unchanged, as in the source. -/
def updateBooking (env : Env) (now : Nat) (bookingId : Nat)
    (dto : UpdateBookingDto) (user : JwtPayload) (st : Store) :
    Except BErr (BookingRec × Store) :=
  match findBooking st bookingId with
  | none => .error (.notFound "Booking not found.")
  | some booking =>
    let isCustomer := booking.customer == user.id
    let isClubOwner :=
      match findClub env booking.club with
      | some c => c.owner == user.id
      | none => false
    let isAdmin := user.roles.contains Role.Admin
    let statusStep : Except BErr (StatusV × Store) :=
      match dto.status with
      | none => .ok (booking.status, st)
      | some newStatus =>
        if !newStatus.truthy then .ok (booking.status, st)
        else if isCustomer then
          if newStatus == BookingStatus.CancelledByCustomer &&
              (booking.status == BookingStatus.Pending ||
               booking.status == BookingStatus.Confirmed) then
            .ok (newStatus, st)
          else if booking.status != newStatus then
            .error (.forbidden "You are not allowed to set this booking status.")
          else .ok (booking.status, st)
        else if isClubOwner || isAdmin then
          if newStatus == BookingStatus.Expired then
            if isExpireBooking now st bookingId then .ok (newStatus, st)
            else .error (.forbidden "You cannot set the status to expired for a valid booking.")
          else if newStatus == BookingStatus.Confirmed &&
              booking.status == BookingStatus.Pending then
            .ok (newStatus, st)
          else if newStatus == BookingStatus.CancelledByClub &&
              (booking.status == BookingStatus.Pending ||
               booking.status == BookingStatus.Confirmed) then
            .ok (newStatus, st)
          else if newStatus == BookingStatus.Confirmed &&
              booking.status == BookingStatus.ReschedulePending then
            .ok (newStatus,
              match booking.rescheduleOf with
              | some origId => setStatus st origId BookingStatus.CancelledRescheduled
              | none => st)
          else if newStatus == BookingStatus.Rejected &&
              booking.status == BookingStatus.ReschedulePending then
            .ok (newStatus,
              match booking.rescheduleOf with
              | some origId => setStatus st origId BookingStatus.Confirmed
              | none => st)
          else if newStatus == BookingStatus.Completed &&
              booking.status == BookingStatus.Confirmed then
            .ok (newStatus, st)
          else if newStatus == BookingStatus.NoShow &&
              booking.status == BookingStatus.Confirmed then
            .ok (newStatus, st)
          else if isAdmin then
            .ok (newStatus, st)
          else if booking.status != newStatus then
            .error (.forbidden "As a club owner, you cannot set this status.")
          else .ok (booking.status, st)
        else
          .error (.forbidden "You do not have permission to update this booking status.")
    match statusStep with
    | .error e => .error e
    | .ok (newStatusVal, st1) =>
      let notesStep : Except BErr (Option String) :=
        match dto.notes with
        | none => .ok booking.notes
        | some n =>
          if isCustomer || isClubOwner || isAdmin then .ok (some n)
          else .error (.forbidden "You do not have permission to update notes for this booking.")
      match notesStep with
      | .error e => .error e
      | .ok notesVal =>
        if !(match dto.status with
             | some s => s.truthy
             | none => false) && dto.notes == none then
          .error (.badRequest "No update data provided (status or notes).")
        else
          let updated := { booking with status := newStatusVal, notes := notesVal }
          if !(statusValid updated.status) then
            .error (.validation "Booking validation failed: status is not a valid enum value.")
          else
            .ok (updated, setBooking st1 bookingId updated)

/-- `getBookingStatus` (booking.service.ts lines 406-414). -/
def getBookingStatus (st : Store) (bookingId : Nat) : Except BErr StatusV :=
  match findBooking st bookingId with
  | none => .error (.notFound "Booking not found.")
  | some b => .ok b.status

/-- Descending (date, startTime) insertion step for the
`sort({ bookingDate: -1, startTime: -1 })` listings. -/
def insertDesc (x : BookingRec) : List BookingRec → List BookingRec
  | [] => [x]
  | y :: ys =>
    if y.bookingDate < x.bookingDate ||
        (y.bookingDate == x.bookingDate && y.startTime ≤ x.startTime) then
      x :: y :: ys
    else y :: insertDesc x ys

/-- Stable sort by bookingDate descending, then startTime descending. -/
def sortByDateTimeDesc (l : List BookingRec) : List BookingRec :=
  l.foldr insertDesc []

/-- The query part of `getBookingsForClubByOwner`: filter by club (and
optional status), sort descending, then apply mongo `skip`/`limit`
(`limit 0` means unlimited). -/
def clubBookingsQuery (clubId : Nat) (status : Option StatusV)
    (limit skip : Nat) (st : Store) : List BookingRec :=
  let q := st.bookings.filter fun b =>
    b.club == clubId &&
    (match status with
     | some s => b.status == s
     | none => true)
  let afterSkip := (sortByDateTimeDesc q).drop skip
  if limit == 0 then afterSkip else afterSkip.take limit

/-- `getBookingsForClubByOwner` (booking.service.ts lines 501-542): club
lookup, ownership check (the admin-role check is commented out in the
source), then the filtered/sorted/paginated listing. -/
def getBookingsForClubByOwner (env : Env) (clubId : Nat) (user : JwtPayload)
    (status : Option StatusV) (limit skip : Nat) (st : Store) :
    Except BErr (List BookingRec) :=
  match findClub env clubId with
  | none => .error (.notFound "Club not found.")
  | some club =>
    let isOwner := club.owner == user.id
    if !isOwner then
      .error (.forbidden "You are not authorized to access bookings for this club.")
    else
      .ok (clubBookingsQuery clubId status limit skip st)


/-- A booking counts against availability when its status is pending or
confirmed (the two statuses every overlap/availability query selects). -/
def activeB (b : BookingRec) : Bool :=
  b.status == BookingStatus.Pending || b.status == BookingStatus.Confirmed

/-- Half-open interval overlap of two stored bookings. -/
def overlapB (b1 b2 : BookingRec) : Bool :=
  decide (b1.startTime < b2.endTime) && decide (b1.endTime > b2.startTime)

/-- Two stored bookings do not jointly violate the overlap invariant: not
both on the same service and date, both active, with intersecting
intervals. -/
def noConflictB (b1 b2 : BookingRec) : Bool :=
  !(b1.service == b2.service && b1.bookingDate == b2.bookingDate &&
    activeB b1 && activeB b2 && overlapB b1 b2)

/-- Pairwise absence of conflicts over a list of bookings. -/
def pairwiseOk : List BookingRec → Bool
  | [] => true
  | b :: rest => rest.all (noConflictB b) && pairwiseOk rest

/-- The spec's store invariant (section 3): no two stored pending/confirmed
bookings on the same service and date have intersecting intervals. -/
def storeConsistent (st : Store) : Bool := pairwiseOk st.bookings

/-- Pairwise distinctness of booking ids (every real store satisfies it:
Mongo `_id`s are unique). -/
def nodupIds : List BookingRec → Bool
  | [] => true
  | b :: rest => rest.all (fun x => x.id != b.id) && nodupIds rest

/-- One invocation of a core operation of the booking service.  `create` is
the exported creation entry (initial status defaulting is kept as an
argument, as in the source), `reschedule`'s two booleans are the outcomes of
the two saves on the original booking. -/
inductive CoreOp where
  | create (now cust : Nat) (dto : CreateBookingDto) (initialStatus : StatusV)
  | update (now bid : Nat) (dto : UpdateBookingDto) (user : JwtPayload)
  | reschedule (now origId : Nat) (dto : CreateBookingDto) (user : JwtPayload)
      (holdSaveOk rollbackSaveOk : Bool)
  | expire (now : Nat)
deriving DecidableEq, Repr

/-- Whether a core operation is an `updateBooking` status/notes transition. -/
def CoreOp.isStatusUpdate : CoreOp → Bool
  | .update _ _ _ _ => true
  | _ => false

/-- The store after running one core operation (a failed operation leaves
the persisted store as the operation left it; for `create` and `update`
every error path leaves the store unchanged). -/
def applyOp (env : Env) (st : Store) : CoreOp → Store
  | .create now cust dto initialStatus =>
    match createBooking env now cust dto initialStatus st with
    | .ok (_, st1) => st1
    | .error _ => st
  | .update now bid dto user =>
    match updateBooking env now bid dto user st with
    | .ok (_, st1) => st1
    | .error _ => st
  | .reschedule now origId dto user holdSaveOk rollbackSaveOk =>
    (requestReschedule env now origId dto user holdSaveOk rollbackSaveOk st).2
  | .expire now => expirePastBookings now st

/-- The store states reachable from the empty store through core
operations. -/
inductive Reachable (env : Env) : Store → Prop
  | init : Reachable env { bookings := [], nextId := 0 }
  | step (st : Store) (op : CoreOp) :
      Reachable env st → Reachable env (applyOp env st op)

/-- Contiguity check: the slots follow each other without gaps, the first
starting at the given time. -/
def isContiguousFrom : Nat → List PSlot → Bool
  | _, [] => true
  | t, p :: rest => p.startT == t && isContiguousFrom p.endT rest

/-! Concrete fixtures used by the counterexample / witness theorems. -/

/-- The empty store. -/
def emptyStore : Store := { bookings := [], nextId := 0 }

/-- Fixture club, owned by user 50. -/
def clubW : SportClub := { id := 1, owner := 50, name := "Club" }

/-- Fixture service: active, open every day around the clock, 60-minute
slots, hourly price 100. -/
def svcW : SportService :=
  { id := 2, club := some 1, name := "Court", hourlyPrice := 100,
    isActive := true,
    availableDays := ["Mon", "Tue", "Wed", "Thu", "Fri", "Sat", "Sun"],
    openingTime := 0, closingTime := 1440, slotDurationMinutes := 60 }

/-- Fixture environment containing `svcW` and `clubW`. -/
def envW : Env := { services := [svcW], clubs := [clubW] }

/-- Fixture inactive service, open Mon-Sun 09:00-10:00. -/
def svcInactiveOn : SportService :=
  { id := 3, club := some 1, name := "Idle", hourlyPrice := 100,
    isActive := false,
    availableDays := ["Mon", "Tue", "Wed", "Thu", "Fri", "Sat", "Sun"],
    openingTime := 540, closingTime := 600, slotDurationMinutes := 60 }

/-- Environment holding the inactive fixture service. -/
def envInactive : Env := { services := [svcInactiveOn], clubs := [clubW] }

/-- The same environment with the service switched active. -/
def envActiveTwin : Env :=
  { services := [{ svcInactiveOn with isActive := true }], clubs := [clubW] }

/-- Fixture customer. -/
def userA : JwtPayload := { id := 5, roles := [Role.User] }

/-- A second fixture customer. -/
def userB : JwtPayload := { id := 6, roles := [Role.User] }

/-- The owner of `clubW`. -/
def ownerU : JwtPayload := { id := 50, roles := [Role.Owner] }

/-- A platform administrator who owns nothing. -/
def adminU : JwtPayload := { id := 99, roles := [Role.Admin] }

/-- Creation request: day 1, 10:00-11:00 on `svcW`. -/
def dtoA : CreateBookingDto :=
  { serviceId := 2, bookingDate := 1, startTime := 600, endTime := 660,
    notes := none, rescheduleOf := none }

/-- Creation request: day 1, 12:00-13:00 on `svcW`. -/
def dtoB : CreateBookingDto :=
  { serviceId := 2, bookingDate := 1, startTime := 720, endTime := 780,
    notes := none, rescheduleOf := none }

/-- An invalid creation request (start equals end), which `createBooking`
deterministically rejects with BadRequest. -/
def dtoBadTime : CreateBookingDto :=
  { serviceId := 2, bookingDate := 1, startTime := 600, endTime := 600,
    notes := none, rescheduleOf := none }

/-- Update request carrying only a Confirmed status. -/
def dtoConfirm : UpdateBookingDto :=
  { status := some BookingStatus.Confirmed, notes := none }

/-- Update request carrying the raw status string "expired" (what a caller
asking for the manual-expire transition sends). -/
def dtoExpireReq : UpdateBookingDto :=
  { status := some (StatusV.str "expired"), notes := none }

/-- A stored pending booking of customer 5 on `svcW`, day 0, 09:00-10:00. -/
def bookingPast : BookingRec :=
  { id := 0, customer := 5, club := 1, service := 2, bookingDate := 0,
    startTime := 540, endTime := 600, durationHours := 1, totalPrice := 100,
    status := BookingStatus.Pending, paymentStatus := "pending",
    notes := none, rescheduleOf := none }

/-- Store holding just `bookingPast`. -/
def storePast : Store := { bookings := [bookingPast], nextId := 1 }

/-- `bookingPast` in Confirmed status. -/
def bookingPastConfirmed : BookingRec :=
  { bookingPast with status := BookingStatus.Confirmed }

/-- Store holding just `bookingPastConfirmed`. -/
def storePastConfirmed : Store :=
  { bookings := [bookingPastConfirmed], nextId := 1 }

/-- A Confirmed booking whose end instant lies in the future (day 10). -/
def bookingFutureConfirmed : BookingRec :=
  { bookingPast with bookingDate := 10, status := BookingStatus.Confirmed }

/-- Store holding just `bookingFutureConfirmed`. -/
def storeFutureConfirmed : Store :=
  { bookings := [bookingFutureConfirmed], nextId := 1 }

/-- A pending booking of customer 5 on day 1, 10:00-11:00 (a reschedulable
original). -/
def bookingOrig : BookingRec :=
  { bookingPast with bookingDate := 1, startTime := 600, endTime := 660 }

/-- Store holding just `bookingOrig`. -/
def storeOrig : Store := { bookings := [bookingOrig], nextId := 1 }

/-- C1 counterexample, step 1: customer 5 books day 1, 10:00-11:00. -/
def c1s1 : Store := applyOp envW emptyStore (.create 0 5 dtoA BookingStatus.Pending)

/-- C1 counterexample, step 2: customer 5 asks to reschedule booking 0 to
12:00-13:00; the original is held and a reschedule-pending booking 1 is
created. -/
def c1s2 : Store := applyOp envW c1s1 (.reschedule 0 0 dtoB userA true true)

/-- C1 counterexample, step 3: customer 6 books the very slot 12:00-13:00
proposed by booking 1 (which, being reschedule-pending, does not block). -/
def c1s3 : Store := applyOp envW c1s2 (.create 0 6 dtoB BookingStatus.Pending)

/-- C1 counterexample, step 4: the owner accepts the reschedule, confirming
booking 1 with no fresh overlap check. -/
def c1s4 : Store := applyOp envW c1s3 (.update 0 1 dtoConfirm ownerU)

/-- The booking `createBooking envW 0 5 dtoB BookingStatus.Pending
emptyStore` persists. -/
def b8 : BookingRec := mkNewBooking svcW 1 5 dtoB BookingStatus.Pending 0

/-- The store that call leaves behind. -/
def store8 : Store := { bookings := [b8], nextId := 1 }

/-- The error of a failed call, `none` for a success (used to state
concrete outcomes, since `Except` equality is not decidable out of the
box). -/
def errOf {α : Type} : Except BErr α → Option BErr
  | .error e => some e
  | .ok _ => none

/-- A fuel of `closing - cur` is never exhausted when the slot duration is
positive: the generator stops exactly when `closing ≤ cur`. -/
theorem genSlotsAux_eq_nil_iff (closing dur cur fuel : Nat)
    (hf : closing - cur ≤ fuel) :
    genSlotsAux closing dur cur fuel = [] ↔ closing ≤ cur := by
  cases fuel with
  | zero =>
    simp only [genSlotsAux, eq_self_iff_true, true_iff]
    omega
  | succ n =>
    by_cases hc : cur < closing
    · simp only [genSlotsAux, if_pos hc]
      constructor
      · intro h; exact absurd h (List.cons_ne_nil _ _)
      · intro h; omega
    · simp only [genSlotsAux, if_neg hc, eq_self_iff_true, true_iff]
      omega

/-- Shape of the generated slot list, by induction on the fuel: contiguity
from the start time, per-slot bounds, full length everywhere except possibly
the last slot, and the last slot ending exactly at closing time. -/
theorem genSlotsAux_spec (closing dur : Nat) (hdur : 0 < dur) :
    ∀ fuel cur, closing - cur ≤ fuel →
      isContiguousFrom cur (genSlotsAux closing dur cur fuel) = true ∧
      (∀ p ∈ genSlotsAux closing dur cur fuel,
        p.startT < p.endT ∧ p.endT ≤ closing ∧
        (p.endT = p.startT + dur ∨ p.endT = closing)) ∧
      (∀ p ∈ (genSlotsAux closing dur cur fuel).dropLast,
        p.endT = p.startT + dur) ∧
      (∀ p, (genSlotsAux closing dur cur fuel).getLast? = some p →
        p.endT = closing) := by
  intro fuel
  induction fuel with
  | zero =>
    intro cur hf
    refine ⟨rfl, by simp [genSlotsAux], by simp [genSlotsAux], by simp [genSlotsAux]⟩
  | succ n ih =>
    intro cur hf
    by_cases hc : cur < closing
    · set e := (if closing < cur + dur then closing else cur + dur) with he
      have he1 : cur < e := by rw [he]; split <;> omega
      have he2 : e ≤ closing := by rw [he]; split <;> omega
      have he3 : e = cur + dur ∨ e = closing := by
        rw [he]; split
        · right; rfl
        · left; rfl
      have hgen : genSlotsAux closing dur cur (n + 1) =
          { startT := cur, endT := e,
            display := timeToStr cur ++ "-" ++ timeToStr e } ::
            genSlotsAux closing dur e n := by
        simp only [genSlotsAux, ← he, if_pos hc]
      obtain ⟨ih1, ih2, ih3, ih4⟩ := ih e (by omega)
      rw [hgen]
      refine ⟨?_, ?_, ?_, ?_⟩
      · simp only [isContiguousFrom, beq_self_eq_true, Bool.true_and]
        exact ih1
      · intro p hp
        rcases List.mem_cons.mp hp with rfl | hp2
        · exact ⟨he1, he2, he3⟩
        · exact ih2 p hp2
      · intro p hp
        cases htail : genSlotsAux closing dur e n with
        | nil => rw [htail] at hp; simp at hp
        | cons q qs =>
          rw [htail] at hp
          rw [List.dropLast_cons₂] at hp
          rcases List.mem_cons.mp hp with rfl | hp2
          · have hne : genSlotsAux closing dur e n ≠ [] := by
              rw [htail]; exact List.cons_ne_nil _ _
            have hlt : ¬ closing ≤ e := fun hle =>
              hne ((genSlotsAux_eq_nil_iff closing dur e n (by omega)).mpr hle)
            rcases he3 with h3 | h3
            · exact h3
            · omega
          · exact ih3 p (by rw [htail]; exact hp2)
      · intro p hp
        cases htail : genSlotsAux closing dur e n with
        | nil =>
          rw [htail] at hp
          have hle : closing ≤ e :=
            (genSlotsAux_eq_nil_iff closing dur e n (by omega)).mp htail
          simp only [List.getLast?_singleton, Option.some.injEq] at hp
          subst hp
          show e = closing
          omega
        | cons q qs =>
          rw [htail] at hp
          rw [List.getLast?_cons_cons] at hp
          exact ih4 p (by rw [htail]; exact hp)
    · have hnil : genSlotsAux closing dur cur (n + 1) = [] := by
        simp only [genSlotsAux, if_neg hc]
      rw [hnil]
      refine ⟨rfl, by simp, by simp, by simp⟩

/-- C5: for every service and a date whose weekday is available, the
generated potential slots form a contiguous sequence starting at
`openingTime` with no gaps, each slot of length `slotDurationMinutes`
except possibly the last, the last ending exactly at `closingTime`, and no
slot extending past `closingTime` (the list being empty exactly when
`closingTime ≤ openingTime`).  The positive slot duration is required for
the source loop to terminate. -/
theorem slot_generator_shape (svc : SportService) (d : Nat)
    (hday : svc.availableDays.contains (dayOfWeek d) = true)
    (hdur : 0 < svc.slotDurationMinutes) :
    isContiguousFrom svc.openingTime
      (potentialSlots svc.openingTime svc.closingTime svc.slotDurationMinutes) = true ∧
    (∀ p ∈ potentialSlots svc.openingTime svc.closingTime svc.slotDurationMinutes,
      p.startT < p.endT ∧ p.endT ≤ svc.closingTime ∧
      (p.endT = p.startT + svc.slotDurationMinutes ∨ p.endT = svc.closingTime)) ∧
    (∀ p ∈ (potentialSlots svc.openingTime svc.closingTime svc.slotDurationMinutes).dropLast,
      p.endT = p.startT + svc.slotDurationMinutes) ∧
    (∀ p, (potentialSlots svc.openingTime svc.closingTime
        svc.slotDurationMinutes).getLast? = some p → p.endT = svc.closingTime) ∧
    (potentialSlots svc.openingTime svc.closingTime svc.slotDurationMinutes = [] ↔
      svc.closingTime ≤ svc.openingTime) := by
  have h := genSlotsAux_spec svc.closingTime svc.slotDurationMinutes hdur
    (svc.closingTime - svc.openingTime) svc.openingTime (le_refl _)
  have h2 := genSlotsAux_eq_nil_iff svc.closingTime svc.slotDurationMinutes
    svc.openingTime (svc.closingTime - svc.openingTime) (le_refl _)
  exact ⟨h.1, h.2.1, h.2.2.1, h.2.2.2, h2⟩

/-- Witness for `slot_generator_shape` at the inactive fixture service
(Mon-Sun, 09:00-10:00, 60-minute slots) on a Monday. -/
theorem slot_generator_shape_witness :
    svcInactiveOn.availableDays.contains (dayOfWeek 4) = true ∧
    0 < svcInactiveOn.slotDurationMinutes ∧
    isContiguousFrom svcInactiveOn.openingTime
      (potentialSlots svcInactiveOn.openingTime svcInactiveOn.closingTime
        svcInactiveOn.slotDurationMinutes) = true :=
  ⟨by decide, by decide,
    (slot_generator_shape svcInactiveOn 4 (by decide) (by decide)).1⟩

/-- C6: for intervals with `candidate.start < candidate.end`, the two-case
disjunction of `createBooking`'s overlap query is equivalent to the spec's
single intersection test, which is also the test `getAvailableSlots`
filters with (its argument order swapped). -/
theorem overlap_query_equiv_spec_intersection (es ee cs ce : Nat)
    (hc : cs < ce) :
    (mongoOverlapCond es ee cs ce = true ↔ specIntersects es ee cs ce = true) ∧
    (specIntersects es ee cs ce = true ↔ intersects cs ce es ee = true) := by
  simp only [mongoOverlapCond, specIntersects, intersects, Bool.or_eq_true,
    Bool.and_eq_true, decide_eq_true_eq]
  omega

/-- Witness for `overlap_query_equiv_spec_intersection` on the concrete
intervals `[5,9)` (existing) and `[4,8)` (candidate). -/
theorem overlap_query_equiv_spec_intersection_witness :
    4 < 8 ∧
    ((mongoOverlapCond 5 9 4 8 = true ↔ specIntersects 5 9 4 8 = true) ∧
     (specIntersects 5 9 4 8 = true ↔ intersects 4 8 5 9 = true)) :=
  ⟨by decide, overlap_query_equiv_spec_intersection 5 9 4 8 (by decide)⟩

/-- C3 (code bug): the `BookingStatus` enum defines no member with value
"expired", so the sweep's `$set { status: BookingStatus.Expired }` writes
the JavaScript undefined.  After sweeping a store holding one pending
booking whose end instant has passed, that booking's status is the
undefined value, not an enum member with value "expired". -/
theorem expiry_sweep_writes_undefined_not_enum_expired :
    bookingStatusEnumValues.contains "expired" = false ∧
    BookingStatus.Expired = StatusV.undef ∧
    bookingEndInstant bookingPast ≤ 1440 ∧
    bookingPast.status = BookingStatus.Pending ∧
    (expirePastBookings 1440 storePast).bookings.map (fun b => b.status) =
      [StatusV.undef] := by decide

/-- C4 (code bug): with a Confirmed booking whose end instant has long
passed, the point check `isExpireBooking` confirms expiry, yet the club
owner's request to set status "expired" is rejected with Forbidden: the
guard `newStatus === BookingStatus.Expired` compares against the undefined
value of the missing enum member and never fires. -/
theorem manual_expire_forbidden_despite_expiry :
    isExpireBooking 100000 storePastConfirmed 0 = true ∧
    StatusV.str "expired" ≠ BookingStatus.Expired ∧
    errOf (updateBooking envW 100000 0 dtoExpireReq ownerU storePastConfirmed) =
      some (.forbidden "As a club owner, you cannot set this status.") := by
  decide

/-- C10 (code bug): with a Confirmed booking whose end instant has not yet
passed, an admin's request to set status "expired" bypasses the dead
expiry-verification branch (its guard compares against the undefined value
of the missing enum member) and lands in the admin unrestricted-override
branch; the subsequent `booking.save()` is then rejected by the schema's
status enum validator, since "expired" is not among the enum's values.  So
the admin receives a ValidationError — not the Forbidden the claim
asserts — and the point check is never consulted. -/
theorem admin_expire_gets_validation_error_not_forbidden :
    isExpireBooking 0 storeFutureConfirmed 0 = false ∧
    StatusV.str "expired" ≠ BookingStatus.Expired ∧
    bookingStatusEnumValues.contains "expired" = false ∧
    errOf (updateBooking envW 0 0 dtoExpireReq adminU storeFutureConfirmed) =
      some (.validation "Booking validation failed: status is not a valid enum value.") := by
  decide

/-- C7 counterexample: `getAvailableSlots` never consults the service's
active flag, so the inactive fixture service still yields its slot on an
available weekday (day 4 is a Monday in the model's convention). -/
theorem inactive_service_still_returns_slots :
    svcInactiveOn.isActive = false ∧
    (getAvailableSlots envInactive 3 4 emptyStore).toOption =
      some ["09:00-10:00"] := by
  decide

/-- C9 counterexample: an admin who does not own the club is refused by
`getBookingsForClubByOwner` (the admin-role exception is commented out in
the source), contradicting the owner-or-admin claim. -/
theorem admin_forbidden_on_club_listing :
    adminU.roles.contains Role.Admin = true ∧
    clubW.owner ≠ adminU.id ∧
    errOf (getBookingsForClubByOwner envW 1 adminU none 0 0 storePastConfirmed) =
      some (.forbidden "You are not authorized to access bookings for this club.") := by
  decide

/-- C7 amended: `getAvailableSlots` returns the empty sequence when the
weekday is not in `availableDays`, and its result depends only on the
service's `availableDays`, opening/closing times and slot duration — in
particular it is unchanged when only the `isActive` flag differs, so an
inactive service is not mapped to an empty sequence. -/
theorem available_slots_day_check_only (env env2 : Env) (sid d : Nat)
    (st : Store) (svc svc2 : SportService)
    (h1 : findService env sid = some svc)
    (h2 : findService env2 sid = some svc2)
    (hd : svc2.availableDays = svc.availableDays)
    (ho : svc2.openingTime = svc.openingTime)
    (hc : svc2.closingTime = svc.closingTime)
    (hs : svc2.slotDurationMinutes = svc.slotDurationMinutes) :
    (svc.availableDays.contains (dayOfWeek d) = false →
      getAvailableSlots env sid d st = .ok []) ∧
    getAvailableSlots env2 sid d st = getAvailableSlots env sid d st := by
  constructor
  · intro hday
    simp only [getAvailableSlots, h1]
    rw [hday]
    rfl
  · simp only [getAvailableSlots, h1, h2, hd, ho, hc, hs]

/-- Witness for `available_slots_day_check_only`: flipping only the active
flag of the fixture service does not change the result of
`getAvailableSlots`. -/
theorem available_slots_day_check_only_witness :
    getAvailableSlots envInactive 3 4 emptyStore =
      getAvailableSlots envActiveTwin 3 4 emptyStore :=
  (available_slots_day_check_only envActiveTwin envInactive 3 4 emptyStore
    { svcInactiveOn with isActive := true } svcInactiveOn
    (by decide) (by decide) rfl rfl rfl rfl).2

/-- C9 amended: `getBookingsForClubByOwner` returns the club's bookings
exactly when the actor is the club's owner; every other actor — an admin
included — receives Forbidden (the admin-role exception is commented out in
the source). -/
theorem club_listing_owner_only (env : Env) (clubId : Nat)
    (user : JwtPayload) (status : Option StatusV) (limit skip : Nat)
    (st : Store) (club : SportClub)
    (hfind : findClub env clubId = some club) :
    (club.owner = user.id →
      getBookingsForClubByOwner env clubId user status limit skip st =
        .ok (clubBookingsQuery clubId status limit skip st)) ∧
    (club.owner ≠ user.id →
      getBookingsForClubByOwner env clubId user status limit skip st =
        .error (.forbidden "You are not authorized to access bookings for this club.")) := by
  constructor
  · intro h
    simp [getBookingsForClubByOwner, hfind, h]
  · intro h
    have hb : (club.owner == user.id) = false := beq_eq_false_iff_ne.mpr h
    simp [getBookingsForClubByOwner, hfind, hb]

/-- Witness for `club_listing_owner_only`: the owner of the fixture club
obtains the listing. -/
theorem club_listing_owner_only_witness :
    getBookingsForClubByOwner envW 1 ownerU none 0 0 storePastConfirmed =
      .ok (clubBookingsQuery 1 none 0 0 storePastConfirmed) :=
  (club_listing_owner_only envW 1 ownerU none 0 0 storePastConfirmed clubW
    (by decide)).1 (by decide)

/-- List-level form of `findBooking_setStatus`: rewriting the status of
every record with the given id commutes with the lookup by that id. -/
theorem find_setStatus_list (bid : Nat) (s : StatusV) :
    ∀ (l : List BookingRec) (b : BookingRec),
      l.find? (fun x => x.id == bid) = some b →
      (l.map (fun x => if x.id == bid then { x with status := s } else x)).find?
        (fun x => x.id == bid) = some { b with status := s } := by
  intro l
  induction l with
  | nil =>
    intro b h
    simp at h
  | cons a l ih =>
    intro b h
    by_cases hc : (a.id == bid) = true
    · simp only [List.find?, hc, cond_true] at h
      obtain rfl : a = b := by simpa using h
      simp [List.find?, hc]
    · have hc2 : (a.id == bid) = false := by
        cases hx : (a.id == bid)
        · rfl
        · exact absurd hx hc
      simp only [List.find?, hc2, cond_false] at h
      simpa [List.find?, hc2] using ih b h

/-- `setStatus` rewrites exactly the looked-up record's status as seen
through `findBooking`. -/
theorem findBooking_setStatus (st : Store) (bid : Nat) (s : StatusV)
    (b : BookingRec) (h : findBooking st bid = some b) :
    findBooking (setStatus st bid s) bid = some { b with status := s } :=
  find_setStatus_list bid s st.bookings b h

/-- C2 amended: when the inner `createBooking` of `requestReschedule`
fails, a successful rollback write restores the original booking's
pre-request status and rethrows the creation error unchanged; but if the
rollback write itself is rejected, no retry happens — the storage error
replaces the creation error and the original stays on hold in
RescheduleRequested. -/
theorem reschedule_rollback_restores_and_rethrows (env : Env)
    (now origId : Nat) (dto : CreateBookingDto) (user : JwtPayload)
    (st : Store) (orig : BookingRec) (e : BErr)
    (hfind : findBooking st origId = some orig)
    (hown : orig.customer = user.id)
    (hstat : orig.status = BookingStatus.Pending ∨
      orig.status = BookingStatus.Confirmed)
    (hfail : createBooking env now user.id
        { dto with rescheduleOf := some origId } BookingStatus.ReschedulePending
        (setStatus st origId BookingStatus.RescheduleRequested) = .error e) :
    (requestReschedule env now origId dto user true true st).1 = .error e ∧
    findBooking (requestReschedule env now origId dto user true true st).2
      origId = some orig ∧
    (requestReschedule env now origId dto user true false st).1 =
      .error (.storage "save rejected") ∧
    findBooking (requestReschedule env now origId dto user true false st).2
      origId = some { orig with status := BookingStatus.RescheduleRequested } := by
  have hcust : (orig.customer != user.id) = false := by simp [hown]
  have hst2 : (orig.status == BookingStatus.Confirmed ||
      orig.status == BookingStatus.Pending) = true := by
    rcases hstat with h | h <;> simp [h]
  have hred : ∀ rOk : Bool,
      requestReschedule env now origId dto user true rOk st =
        (if rOk then
          (.error e, setStatus (setStatus st origId
            BookingStatus.RescheduleRequested) origId orig.status)
        else
          (.error (.storage "save rejected"),
            setStatus st origId BookingStatus.RescheduleRequested)) := by
    intro rOk
    simp only [requestReschedule, hfind, hcust, hst2, hfail, Bool.not_true,
      Bool.not_false, if_false, if_true, Bool.false_eq_true, ite_false]
  have hfb1 := findBooking_setStatus st origId BookingStatus.RescheduleRequested
    orig hfind
  have hfb2 := findBooking_setStatus
    (setStatus st origId BookingStatus.RescheduleRequested) origId orig.status
    { orig with status := BookingStatus.RescheduleRequested } hfb1
  refine ⟨?_, ?_, ?_, ?_⟩
  · rw [hred true]
    rfl
  · rw [hred true]
    exact hfb2
  · rw [hred false]
    rfl
  · rw [hred false]
    exact hfb1

/-- C2 counterexample: with the rollback write rejected, the caller
receives the storage error instead of the original BadRequest (which the
successful-rollback run surfaces), and the original booking is left in
RescheduleRequested rather than its pre-request Pending status. -/
theorem reschedule_rollback_failure_swallows_error :
    errOf (requestReschedule envW 0 0 dtoBadTime userA true false storeOrig).1 =
      some (.storage "save rejected") ∧
    errOf (requestReschedule envW 0 0 dtoBadTime userA true true storeOrig).1 =
      some (.badRequest "Invalid start or end time for booking.") ∧
    BErr.storage "save rejected" ≠
      BErr.badRequest "Invalid start or end time for booking." ∧
    ((requestReschedule envW 0 0 dtoBadTime userA true false storeOrig).2.bookings.map
      (fun b => b.status)) = [BookingStatus.RescheduleRequested] ∧
    bookingOrig.status = BookingStatus.Pending ∧
    BookingStatus.RescheduleRequested ≠ BookingStatus.Pending := by decide

/-- Witness for `reschedule_rollback_restores_and_rethrows` on the fixture
store: the original error resurfaces and booking 0 is restored. -/
theorem reschedule_rollback_restores_and_rethrows_witness :
    (requestReschedule envW 0 0 dtoBadTime userA true true storeOrig).1 =
      .error (.badRequest "Invalid start or end time for booking.") ∧
    findBooking (requestReschedule envW 0 0 dtoBadTime userA true true
      storeOrig).2 0 = some bookingOrig := by
  have h := reschedule_rollback_restores_and_rethrows envW 0 0 dtoBadTime
    userA storeOrig bookingOrig
    (.badRequest "Invalid start or end time for booking.")
    rfl rfl (Or.inl rfl) rfl
  exact ⟨h.1, h.2.1⟩

/-- What a successful `createBooking` run guarantees: the service was found
active with a club, the time range is proper, no stored pending/confirmed
booking matched the overlap query, and the store gained exactly the
document built by `mkNewBooking` under the fresh id. -/
theorem createBooking_ok_elim (env : Env) (now cust : Nat)
    (dto : CreateBookingDto) (initS : StatusV) (st : Store)
    (b : BookingRec) (st1 : Store)
    (h : createBooking env now cust dto initS st = .ok (b, st1)) :
    ∃ svc club, findService env dto.serviceId = some svc ∧
      svc.isActive = true ∧ svc.club = some club ∧
      dto.startTime < dto.endTime ∧
      (∀ ex ∈ st.bookings, overlapsActiveQuery dto ex = false) ∧
      b = mkNewBooking svc club cust dto initS st.nextId ∧
      st1 = { bookings := st.bookings ++ [b], nextId := st.nextId + 1 } := by
  unfold createBooking at h
  split at h
  · exact absurd h (by simp)
  next svc hsvc =>
    split at h
    · exact absurd h (by simp)
    split at h
    · exact absurd h (by simp)
    next club hclub =>
      split at h
      · exact absurd h (by simp)
      split at h
      · exact absurd h (by simp)
      split at h
      · exact absurd h (by simp)
      split at h
      · exact absurd h (by simp)
      split at h
      · exact absurd h (by simp)
      split at h
      · exact absurd h (by simp)
      rename_i x1 hact x2 hse hpast havail hdur hzero hany
      simp only [Except.ok.injEq, Prod.mk.injEq] at h
      obtain ⟨hb, hst⟩ := h
      subst hb
      subst hst
      refine ⟨svc, club, hsvc, ?_, hclub, ?_, ?_, rfl, rfl⟩
      · simpa using hact
      · omega
      · intro ex hex
        cases hq : overlapsActiveQuery dto ex
        · rfl
        · exact absurd (List.any_eq_true.mpr ⟨ex, hex, hq⟩) hany

/-- Lookup skips a prefix on which the predicate is everywhere false. -/
theorem find_append_right (l1 l2 : List BookingRec) (p : BookingRec → Bool)
    (h : ∀ x ∈ l1, p x = false) :
    (l1 ++ l2).find? p = l2.find? p := by
  induction l1 with
  | nil => rfl
  | cons a l ih =>
    have ha := h a (List.mem_cons_self a l)
    simpa [List.find?, ha] using ih (fun x hx => h x (List.mem_cons_of_mem a hx))

/-- C8: a successful `createBooking` call, fetched back by the new id,
returns the very record that was requested: same customer, service, date
and time range, `durationHours` equal to the requested minutes over 60,
`totalPrice` equal to the service's hourly price times `durationHours`, and
`paymentStatus` pending.  Freshness of the store's next id (which Mongo
guarantees for `_id`) makes the lookup unambiguous. -/
theorem create_booking_round_trip (env : Env) (now cust : Nat)
    (dto : CreateBookingDto) (initS : StatusV) (st : Store)
    (b : BookingRec) (st1 : Store)
    (hfresh : ∀ x ∈ st.bookings, x.id < st.nextId)
    (h : createBooking env now cust dto initS st = .ok (b, st1)) :
    findBooking st1 b.id = some b ∧
    b.customer = cust ∧ b.service = dto.serviceId ∧
    b.bookingDate = dto.bookingDate ∧ b.startTime = dto.startTime ∧
    b.endTime = dto.endTime ∧
    b.durationHours = mkRat ((dto.endTime - dto.startTime : Nat) : Int) 60 ∧
    (∃ svc, findService env dto.serviceId = some svc ∧
      b.totalPrice = svc.hourlyPrice * b.durationHours) ∧
    b.paymentStatus = "pending" := by
  obtain ⟨svc, club, hsvc, hact, hclub, hlt, hover, hb, hst⟩ :=
    createBooking_ok_elim env now cust dto initS st b st1 h
  subst hb
  subst hst
  refine ⟨?_, rfl, rfl, rfl, rfl, rfl, rfl, ⟨svc, hsvc, rfl⟩, rfl⟩
  unfold findBooking
  rw [find_append_right]
  · simp [List.find?]
  · intro x hx
    have hlt2 := hfresh x hx
    have hne : x.id ≠ (mkNewBooking svc club cust dto initS st.nextId).id := by
      simp only [mkNewBooking]
      omega
    exact beq_eq_false_iff_ne.mpr hne

/-- Witness for `create_booking_round_trip`: booking `dtoB` on the fixture
service from the empty store and fetching it back. -/
theorem create_booking_round_trip_witness :
    b8.customer = 5 ∧ findBooking store8 b8.id = some b8 := by
  have h := create_booking_round_trip envW 0 5 dtoB BookingStatus.Pending
    emptyStore b8 store8 (by intro x hx; simp [emptyStore] at hx) rfl
  exact ⟨h.2.1, h.1⟩

/-- A booking that is not pending/confirmed conflicts with nothing. -/
theorem noConflictB_of_inactive_left (b1 b2 : BookingRec)
    (h : activeB b1 = false) : noConflictB b1 b2 = true := by
  simp [noConflictB, h]

/-- Symmetric form of `noConflictB_of_inactive_left`. -/
theorem noConflictB_of_inactive_right (b1 b2 : BookingRec)
    (h : activeB b2 = false) : noConflictB b1 b2 = true := by
  simp [noConflictB, h]

/-- Appending one booking keeps the store pairwise conflict-free exactly
when the old store was and the newcomer conflicts with no stored booking. -/
theorem pairwiseOk_append_singleton : ∀ (l : List BookingRec) (b : BookingRec),
    pairwiseOk (l ++ [b]) = true ↔
      (pairwiseOk l = true ∧ ∀ x ∈ l, noConflictB x b = true) := by
  intro l
  induction l with
  | nil =>
    intro b
    simp [pairwiseOk]
  | cons a l ih =>
    intro b
    constructor
    · intro h
      have h2 : ((l ++ [b]).all (noConflictB a) && pairwiseOk (l ++ [b])) = true := h
      rw [Bool.and_eq_true, List.all_append] at h2
      obtain ⟨hall, hrest⟩ := h2
      rw [Bool.and_eq_true] at hall
      obtain ⟨hall1, hallb⟩ := hall
      obtain ⟨hp, hxall⟩ := (ih b).mp hrest
      have hab : noConflictB a b = true := by simpa using hallb
      constructor
      · show (l.all (noConflictB a) && pairwiseOk l) = true
        rw [Bool.and_eq_true]
        exact ⟨hall1, hp⟩
      · intro x hx
        rcases List.mem_cons.mp hx with rfl | hx2
        · exact hab
        · exact hxall x hx2
    · rintro ⟨hp, hxall⟩
      have hp2 : (l.all (noConflictB a) && pairwiseOk l) = true := hp
      rw [Bool.and_eq_true] at hp2
      obtain ⟨hall1, hpl⟩ := hp2
      show ((l ++ [b]).all (noConflictB a) && pairwiseOk (l ++ [b])) = true
      rw [Bool.and_eq_true, List.all_append]
      refine ⟨?_, (ih b).mpr ⟨hpl, fun x hx => hxall x (List.mem_cons_of_mem a hx)⟩⟩
      rw [Bool.and_eq_true]
      constructor
      · exact hall1
      · simpa using hxall a (List.mem_cons_self a l)

/-- Rewriting each booking either to itself or to something inactive keeps
the store pairwise conflict-free. -/
theorem pairwiseOk_map (f : BookingRec → BookingRec)
    (hf : ∀ x, f x = x ∨ activeB (f x) = false) :
    ∀ l, pairwiseOk l = true → pairwiseOk (l.map f) = true := by
  intro l
  induction l with
  | nil => intro h; exact h
  | cons a l ih =>
    intro h
    simp only [pairwiseOk, Bool.and_eq_true, List.all_eq_true] at h
    obtain ⟨h1, h2⟩ := h
    simp only [List.map_cons, pairwiseOk, Bool.and_eq_true, List.all_eq_true]
    refine ⟨?_, ih h2⟩
    intro y hy
    obtain ⟨x, hx, rfl⟩ := List.mem_map.mp hy
    rcases hf a with ha | ha
    · rw [ha]
      rcases hf x with hx2 | hx2
      · rw [hx2]
        exact h1 x hx
      · exact noConflictB_of_inactive_right a (f x) hx2
    · exact noConflictB_of_inactive_left (f a) (f x) ha

/-- A booking whose overlap-query condition is false cannot conflict with
the newly inserted document (whose service, date and interval come from the
request). -/
theorem noConflict_of_query_false (dto : CreateBookingDto) (x nb : BookingRec)
    (hserv : nb.service = dto.serviceId) (hdate : nb.bookingDate = dto.bookingDate)
    (hstart : nb.startTime = dto.startTime) (hend : nb.endTime = dto.endTime)
    (hq : overlapsActiveQuery dto x = false) : noConflictB x nb = true := by
  simp only [overlapsActiveQuery, mongoOverlapCond, activeB, Bool.and_eq_true,
    Bool.or_eq_true, beq_iff_eq, decide_eq_true_eq] at hq
  simp only [noConflictB, overlapB, activeB, Bool.not_eq_true',
    Bool.and_eq_true, Bool.or_eq_true, beq_iff_eq, decide_eq_true_eq,
    hserv, hdate, hstart, hend]
  rw [Bool.eq_false_iff]
  simp only [ne_eq, Bool.and_eq_true, Bool.or_eq_true, beq_iff_eq,
    decide_eq_true_eq, not_and]
  intro h1 h2 h3
  obtain ⟨⟨⟨hsv, hdt⟩, hst⟩, -⟩ := h1
  rw [Bool.eq_false_iff] at hq
  apply hq
  simp only [Bool.and_eq_true, Bool.or_eq_true, beq_iff_eq, decide_eq_true_eq]
  exact ⟨⟨⟨hsv, hdt⟩, hst⟩, Or.inl ⟨h2, h3⟩⟩

/-- A successful `createBooking` preserves the overlap invariant: the
query checked the new document against every stored pending/confirmed
booking before the insert. -/
theorem createBooking_preserves (env : Env) (now cust : Nat)
    (dto : CreateBookingDto) (initS : StatusV) (st : Store)
    (b : BookingRec) (st1 : Store)
    (hc : storeConsistent st = true)
    (h : createBooking env now cust dto initS st = .ok (b, st1)) :
    storeConsistent st1 = true := by
  obtain ⟨svc, club, hsvc, hact, hclub, hlt, hover, hb, hst⟩ :=
    createBooking_ok_elim env now cust dto initS st b st1 h
  subst hst
  show pairwiseOk (st.bookings ++ [b]) = true
  rw [pairwiseOk_append_singleton]
  refine ⟨hc, fun x hx => ?_⟩
  exact noConflict_of_query_false dto x b (by simp [hb, mkNewBooking])
    (by simp [hb, mkNewBooking]) (by simp [hb, mkNewBooking])
    (by simp [hb, mkNewBooking]) (hover x hx)

/-- Mapping a function that fixes every member is the identity. -/
theorem map_eq_self_of_mem (f : BookingRec → BookingRec) :
    ∀ l : List BookingRec, (∀ x ∈ l, f x = x) → l.map f = l := by
  intro l
  induction l with
  | nil => intro _; rfl
  | cons a l ih =>
    intro h
    rw [List.map_cons, h a (List.mem_cons_self a l),
      ih (fun x hx => h x (List.mem_cons_of_mem a hx))]

/-- With pairwise-distinct ids, the record returned by `find?` is the only
one bearing its id. -/
theorem nodup_find_unique (bid : Nat) :
    ∀ (l : List BookingRec) (b : BookingRec), nodupIds l = true →
      l.find? (fun x => x.id == bid) = some b →
      ∀ x ∈ l, x.id = bid → x = b := by
  intro l
  induction l with
  | nil =>
    intro b _ h
    simp at h
  | cons a l ih =>
    intro b hn hf x hx hxid
    simp only [nodupIds, Bool.and_eq_true, List.all_eq_true] at hn
    obtain ⟨hneq, hn2⟩ := hn
    by_cases hc : (a.id == bid) = true
    · simp only [List.find?, hc, cond_true] at hf
      obtain rfl : a = b := by simpa using hf
      rcases List.mem_cons.mp hx with rfl | hx2
      · rfl
      · have hne := hneq x hx2
        have hab : a.id = bid := by simpa using hc
        exact absurd (hxid.trans hab.symm) (by simpa using hne)
    · have hc2 : (a.id == bid) = false := Bool.eq_false_iff.mpr hc
      simp only [List.find?, hc2, cond_false] at hf
      rcases List.mem_cons.mp hx with rfl | hx2
      · exact absurd (beq_iff_eq.mpr hxid) hc
      · exact ih b hn2 hf x hx2 hxid

/-- Holding a booking and then writing back its previous status restores
the store exactly (ids being unique). -/
theorem setStatus_rollback (st : Store) (bid : Nat) (s : StatusV)
    (orig : BookingRec) (hfind : findBooking st bid = some orig)
    (hnodup : nodupIds st.bookings = true) :
    setStatus (setStatus st bid s) bid orig.status = st := by
  have huniq := nodup_find_unique bid st.bookings orig hnodup hfind
  unfold setStatus
  simp only [List.map_map]
  have hpt : ∀ x ∈ st.bookings,
      ((fun b => if b.id == bid then { b with status := orig.status } else b) ∘
        (fun b => if b.id == bid then { b with status := s } else b)) x = x := by
    intro x hx
    by_cases hc : (x.id == bid) = true
    · have hxo : x = orig := huniq x hx (beq_iff_eq.mp hc)
      subst hxo
      simp [Function.comp, hc]
    · have hc2 : (x.id == bid) = false := Bool.eq_false_iff.mpr hc
      simp [Function.comp, hc2]
  rw [map_eq_self_of_mem _ st.bookings hpt]

/-- The expiry sweep preserves the overlap invariant: it only moves
bookings out of the pending/confirmed set. -/
theorem expire_preserves (now : Nat) (st : Store)
    (hc : storeConsistent st = true) :
    storeConsistent (expirePastBookings now st) = true := by
  unfold expirePastBookings storeConsistent
  apply pairwiseOk_map
  · intro x
    dsimp only
    by_cases hx : ((x.status == BookingStatus.Pending ||
        x.status == BookingStatus.Confirmed) &&
        decide (bookingEndInstant x ≤ now)) = true
    · right
      rw [if_pos hx]
      rfl
    · left
      rw [if_neg hx]
  · exact hc

/-- `requestReschedule` preserves the overlap invariant on every path: the
hold only deactivates a booking, the inner creation is overlap-checked, the
successful rollback restores the previous store, and a failed rollback
leaves the hold in place. -/
theorem requestReschedule_preserves (env : Env) (now origId : Nat)
    (dto : CreateBookingDto) (user : JwtPayload) (hOk rOk : Bool) (st : Store)
    (hc : storeConsistent st = true) (hnodup : nodupIds st.bookings = true) :
    storeConsistent (requestReschedule env now origId dto user hOk rOk st).2 = true := by
  have hheld : storeConsistent
      (setStatus st origId BookingStatus.RescheduleRequested) = true := by
    unfold setStatus storeConsistent
    apply pairwiseOk_map
    · intro x
      dsimp only
      by_cases hx : (x.id == origId) = true
      · right
        rw [if_pos hx]
        rfl
      · left
        rw [if_neg hx]
    · exact hc
  unfold requestReschedule
  cases hfind : findBooking st origId with
  | none =>
    simp only [hfind]
    exact hc
  | some orig =>
    simp only [hfind]
    by_cases h1 : (orig.customer != user.id) = true
    · rw [if_pos h1]
      exact hc
    · rw [if_neg h1]
      by_cases h2 : (!(orig.status == BookingStatus.Confirmed ||
          orig.status == BookingStatus.Pending)) = true
      · rw [if_pos h2]
        exact hc
      · rw [if_neg h2]
        cases hOk with
        | false =>
          rw [if_pos (by rfl)]
          exact hc
        | true =>
          rw [if_neg (by simp)]
          cases hcb : createBooking env now user.id
              { dto with rescheduleOf := some origId }
              BookingStatus.ReschedulePending
              (setStatus st origId BookingStatus.RescheduleRequested) with
          | ok p =>
            cases p with
            | mk nb st1 =>
              exact createBooking_preserves env now user.id _ _ _ nb st1 hheld hcb
          | error e =>
            cases rOk with
            | true =>
              show storeConsistent (setStatus (setStatus st origId
                BookingStatus.RescheduleRequested) origId orig.status) = true
              rw [setStatus_rollback st origId BookingStatus.RescheduleRequested
                orig hfind hnodup]
              exact hc
            | false =>
              exact hheld

/-- C1 amended: of the core operations, `createBooking`,
`requestReschedule` and `expirePastBookings` preserve the overlap
invariant on any invariant-satisfying store with unique ids.
(`updateBooking` does not, hence its exclusion; see the counterexample.) -/
theorem nonupdate_core_ops_preserve_overlap_invariant (env : Env) (st : Store)
    (op : CoreOp) (hc : storeConsistent st = true)
    (hnodup : nodupIds st.bookings = true)
    (hop : op.isStatusUpdate = false) :
    storeConsistent (applyOp env st op) = true := by
  cases op with
  | create now cust dto initS =>
    simp only [applyOp]
    cases h : createBooking env now cust dto initS st with
    | ok p =>
      cases p with
      | mk b st1 => exact createBooking_preserves env now cust dto initS st b st1 hc h
    | error e => exact hc
  | update now bid dto user => simp [CoreOp.isStatusUpdate] at hop
  | reschedule now origId dto user hOk rOk =>
    exact requestReschedule_preserves env now origId dto user hOk rOk st hc hnodup
  | expire now => exact expire_preserves now st hc

/-- Witness for `nonupdate_core_ops_preserve_overlap_invariant`: the expiry
sweep applied to the fixture store. -/
theorem nonupdate_core_ops_preserve_overlap_invariant_witness :
    storeConsistent (applyOp envW storePast (CoreOp.expire 100000)) = true :=
  nonupdate_core_ops_preserve_overlap_invariant envW storePast
    (CoreOp.expire 100000) (by decide) (by decide) (by decide)

/-- C1 counterexample: a store reachable through four core operations —
create, request-reschedule, a second customer's create on the proposed
slot, and the owner's accept — holds a Confirmed and a Pending booking on
the same service and date with identical 12:00-13:00 intervals, violating
the overlap invariant (the accept transition performs no overlap
re-check). -/
theorem reachable_store_violates_overlap_invariant :
    Reachable envW c1s4 ∧ storeConsistent c1s4 = false ∧
    c1s4.bookings.map (fun b => (b.status, b.startTime, b.endTime)) =
      [(BookingStatus.CancelledRescheduled, 600, 660),
       (BookingStatus.Confirmed, 720, 780),
       (BookingStatus.Pending, 720, 780)] := by
  refine ⟨?_, by decide, by decide⟩
  exact Reachable.step c1s3 (.update 0 1 dtoConfirm ownerU)
    (Reachable.step c1s2 (.create 0 6 dtoB BookingStatus.Pending)
      (Reachable.step c1s1 (.reschedule 0 0 dtoB userA true true)
        (Reachable.step emptyStore (.create 0 5 dtoA BookingStatus.Pending)
          Reachable.init)))
